import Mathlib

/-
Verification of the armeria live-state core against its specification.

The Go source is shallowly embedded: Go `map[string]string` values become total
functions `String → String` (a missing key reads as the empty string, exactly as
a Go map read does, and a nil map reads like an empty one); fallible methods
return an explicit error component; a Go panic or `log.Fatal` (process
termination) is modelled by an `Option` result being `none`.
-/

namespace Armeria

/-! ## String helpers (embeddings of the Go `strings` functions used by the source)

All helpers are structural recursions over the character list of a `String`, so
that concrete inputs evaluate by `decide`/`rfl`. The punctuation and case
comparisons the source performs are on ASCII bytes; in UTF-8 a continuation
byte of a multi-byte character is always ≥ 0x80 and can never equal an ASCII
comparand, so the character-level embedding decides every comparison the same
way the byte-level Go code does. -/

/-- ASCII lowering of one character. Go `strings.ToLower` lowers full Unicode;
only ASCII letters matter for the command names and attribute keys at issue. -/
def lowerChar (c : Char) : Char :=
  if 'A' ≤ c ∧ c ≤ 'Z' then Char.ofNat (c.toNat + 32) else c

/-- Embedding of Go `strings.ToLower`. -/
def lowerStr (s : String) : String := ⟨s.data.map lowerChar⟩

/-- Byte length of a string as used by Go `len`; for the empty-check
`len(x) == 0` performed by the source, character count and byte count agree. -/
def strLen (s : String) : Nat := s.data.length

/-- Whitespace test used by Go `strings.Fields`. -/
def isWS (c : Char) : Bool := c == ' ' || c == '\t' || c == '\n' || c == '\r'

/-- Worker for `goFields`: splits around runs of whitespace, accumulating the
current token in reverse. -/
def fieldsAux : List Char → List Char → List String
  | [], acc => if acc.isEmpty then [] else [⟨acc.reverse⟩]
  | c :: rest, acc =>
    if isWS c then
      if acc.isEmpty then fieldsAux rest []
      else ⟨acc.reverse⟩ :: fieldsAux rest []
    else fieldsAux rest (c :: acc)

/-- Embedding of Go `strings.Fields`: split around runs of whitespace,
dropping empty tokens. -/
def goFields (s : String) : List String := fieldsAux s.data []

/-- Worker for `splitSpace`. -/
def splitSpaceAux : List Char → List Char → List String
  | [], acc => [⟨acc.reverse⟩]
  | c :: rest, acc =>
    if c == ' ' then ⟨acc.reverse⟩ :: splitSpaceAux rest []
    else splitSpaceAux rest (c :: acc)

/-- Embedding of Go `strings.Split(s, " ")`: splitting the empty string yields
`[""]`, and consecutive separators yield empty tokens, exactly as in Go. -/
def splitSpace (s : String) : List String := splitSpaceAux s.data []

/-- Embedding of Go `strings.Join(xs, sep)`. -/
def joinSep (sep : String) : List String → String
  | [] => ""
  | [s] => s
  | s :: s2 :: rest => s ++ sep ++ joinSep sep (s2 :: rest)

/-- `strings.Join(xs, " ")`, the join used by command resolution. -/
def joinSpace (xs : List String) : String := joinSep " " xs

/-! ## Attribute whitelists and defaults

`ValidCharacterAttributes`, `ValidItemAttributes` and
`CharacterAttributeDefault` are referenced by the source in `src/` but defined
elsewhere in the repository, so they are modelled from the spec. -/

/-- Modelled from the spec: the fixed, enumerable whitelist of valid Character
attribute names (`ValidCharacterAttributes` is called by
`Character.SetAttribute` but not present in `src/`). The spec names a reserved
`permissions` key, and the source uses `title` and `picture` attributes. -/
def ValidCharacterAttributes : List String := ["picture", "title", "permissions"]

/-- Modelled from the spec: the fixed whitelist of valid ItemInstance attribute
names (`ValidItemAttributes` is called by `ItemInstance.SetAttribute` but not
present in `src/`); the source reads an item `picture` attribute. -/
def ValidItemAttributes : List String := ["picture"]

/-- Modelled from the spec: the kind-specific Character attribute default table
(`CharacterAttributeDefault` is called by `Character.Attribute` but not present
in `src/`; the spec says only that an absent attribute resolves to a
kind-specific default, without listing the table, so the table is left
unspecified here — no theorem below depends on its values). -/
def CharacterAttributeDefault (_name : String) : String := ""

/-! ## Character entity (embedding of `src/unnamed/part_001`)

The inventory container, player back-reference and password fields take no part
in the attribute claims and are omitted from the record; the attribute maps are
total functions with `""` for absent keys, matching Go map reads. -/

structure Character where
  uuid : String
  name : String
  attributes : String → String
  tempAttributes : String → String

/-- Embedding of `Character.SetAttribute`: a permanent attribute may be set
only when the name is whitelisted; the Go method mutates the receiver, so the
embedding returns the updated character together with the optional error. -/
def Character.SetAttribute (c : Character) (name value : String) :
    Character × Option String :=
  if ¬ ValidCharacterAttributes.contains name then
    (c, some "attribute name is invalid")
  else
    ({ c with attributes := fun n => if n = name then value else c.attributes n },
     none)

/-- Embedding of `Character.Attribute`: an absent (empty) stored value falls
back to the kind-specific default. -/
def Character.Attribute (c : Character) (name : String) : String :=
  if strLen (c.attributes name) = 0 then CharacterAttributeDefault name
  else c.attributes name

/-- Embedding of `Character.SetTempAttribute`: unvalidated store. -/
def Character.SetTempAttribute (c : Character) (name value : String) : Character :=
  { c with tempAttributes := fun n => if n = name then value else c.tempAttributes n }

/-- Embedding of `Character.TempAttribute`. -/
def Character.TempAttribute (c : Character) (name : String) : String :=
  c.tempAttributes name

/-- Embedding of `Character.HasPermission`: splits the raw `permissions`
attribute on single spaces and tests membership, with no default fallback. -/
def Character.HasPermission (c : Character) (p : String) : Bool :=
  (splitSpace (c.attributes "permissions")).contains p

/-! ## Item template and ItemInstance (embedding of `src/unnamed/part_000`) -/

structure Item where
  name : String
  attributes : String → String

/-- Modelled from the spec: `Item.Attribute` (the template's default lookup) is
called by `ItemInstance.Attribute` but not present in `src/`; the spec says an
Item is an immutable template whose attributes provide the defaults, never
themselves overridden. -/
def Item.Attribute (it : Item) (name : String) : String := it.attributes name

structure ItemInstance where
  uuid : String
  parent : String
  attributes : String → String

/-- Modelled from the spec: `ItemManager.ItemByName`, the name-keyed template
lookup used by `ItemInstance.Parent` (not present in `src/`). -/
def ItemByName (items : List Item) (name : String) : Option Item :=
  items.find? (fun it => it.name == name)

/-- Embedding of `ItemInstance.SetAttribute`. The Go method first replaces a
nil attribute map by an empty one, which under the map-as-function model is the
identity; it then rejects non-whitelisted names before storing. -/
def ItemInstance.SetAttribute (ii : ItemInstance) (name value : String) :
    ItemInstance × Option String :=
  if ¬ ValidItemAttributes.contains name then
    (ii, some "attribute name is invalid")
  else
    ({ ii with attributes := fun n => if n = name then value else ii.attributes n },
     none)

/-- Embedding of `ItemInstance.Attribute`: an empty overlay value falls back to
the parent template via the manager lookup; `none` models the Go nil-pointer
panic when the parent template cannot be resolved. -/
def ItemInstance.Attribute (items : List Item) (ii : ItemInstance)
    (name : String) : Option String :=
  if strLen (ii.attributes name) = 0 then
    (ItemByName items ii.parent).map (fun it => it.Attribute name)
  else some (ii.attributes name)

/-! ## Basic lemmas -/

lemma strLen_eq_zero_iff (s : String) : strLen s = 0 ↔ s = "" := by
  cases s with
  | mk d =>
    cases d with
    | nil => simp [strLen]
    | cons c t =>
      simp only [strLen, List.length_cons]
      constructor
      · intro h; omega
      · intro h
        have : (String.mk (c :: t)).data = ("" : String).data := by rw [h]
        simp at this

lemma splitSpace_empty : splitSpace "" = [""] := by decide

/-! ## C3 / C4 / C6 / C9 theorems -/

/-- Concrete sword template: its `picture` attribute defaults to a non-empty
value. -/
def itemsCex : List Item :=
  [⟨"sword", fun n => if n = "picture" then "sword.png" else ""⟩]

/-- Concrete instance of the sword template with an empty overlay. -/
def swordInstance : ItemInstance := ⟨"uuid-1", "sword", fun _ => ""⟩

/-- C3 counterexample: on an ItemInstance whose template carries a non-empty
`picture` value, `SetAttribute("picture", "")` followed by
`Attribute("picture")` returns the template value `"sword.png"`, not the stored
empty string — the claimed round-trip fails at the value `v = ""`. -/
theorem setAttribute_roundtrip_cex :
    ItemInstance.Attribute itemsCex
        (ItemInstance.SetAttribute swordInstance "picture" "").1 "picture"
      = some "sword.png" ∧
    ItemInstance.Attribute itemsCex
        (ItemInstance.SetAttribute swordInstance "picture" "").1 "picture"
      ≠ some "" := by
  constructor <;>
    simp [ItemInstance.SetAttribute, ItemInstance.Attribute, itemsCex,
      swordInstance, ItemByName, Item.Attribute, ValidItemAttributes, strLen]

/-- C3 (amended): for every whitelisted attribute name and every *non-empty*
value `v`, `SetAttribute(n, v)` followed by `Attribute(n)` returns exactly `v`,
on a Character and on an ItemInstance; for `v = ""` the entity's fallback
(kind default, resp. template value) is returned instead. -/
theorem setAttribute_roundtrip (c : Character) (ii : ItemInstance)
    (items : List Item) (n v : String)
    (hc : ValidCharacterAttributes.contains n = true)
    (hi : ValidItemAttributes.contains n = true)
    (hv : v ≠ "") :
    Character.Attribute (Character.SetAttribute c n v).1 n = v ∧
    ItemInstance.Attribute items (ItemInstance.SetAttribute ii n v).1 n
      = some v := by
  have hlen : strLen v ≠ 0 := fun h => hv ((strLen_eq_zero_iff v).mp h)
  have hcm : n ∈ ValidCharacterAttributes := by simpa using hc
  have him : n ∈ ValidItemAttributes := by simpa using hi
  constructor
  · simp [Character.SetAttribute, hcm, Character.Attribute, hlen]
  · simp [ItemInstance.SetAttribute, him, ItemInstance.Attribute, hlen]

/-- C3 witness: the round-trip evaluated at a concrete character, instance and
non-empty value. -/
theorem setAttribute_roundtrip_witness :
    Character.Attribute
        (Character.SetAttribute ⟨"u1", "alice", fun _ => "", fun _ => ""⟩
          "picture" "face.png").1 "picture" = "face.png" ∧
    ItemInstance.Attribute itemsCex
        (ItemInstance.SetAttribute swordInstance "picture" "axe.png").1 "picture"
      = some "axe.png" := by
  have h := setAttribute_roundtrip ⟨"u1", "alice", fun _ => "", fun _ => ""⟩
    swordInstance itemsCex "picture" "axe.png" (by decide) (by decide) (by decide)
  have h2 := setAttribute_roundtrip ⟨"u1", "alice", fun _ => "", fun _ => ""⟩
    swordInstance itemsCex "picture" "face.png" (by decide) (by decide) (by decide)
  exact ⟨h2.1, h.2⟩

/-- C4 (confirmed): for every name outside the entity kind's whitelist,
`SetAttribute` returns the invalid-attribute error and returns the entity
unchanged — no entry is added or modified — on Characters and ItemInstances. -/
theorem setAttribute_invalid_noop (c : Character) (ii : ItemInstance)
    (n v : String)
    (hc : ValidCharacterAttributes.contains n = false)
    (hi : ValidItemAttributes.contains n = false) :
    Character.SetAttribute c n v = (c, some "attribute name is invalid") ∧
    ItemInstance.SetAttribute ii n v = (ii, some "attribute name is invalid") := by
  have hcm : n ∉ ValidCharacterAttributes := by simpa using hc
  have him : n ∉ ValidItemAttributes := by simpa using hi
  constructor
  · simp [Character.SetAttribute, hcm]
  · simp [ItemInstance.SetAttribute, him]

/-- C4 witness: a concrete non-whitelisted name is rejected on both entity
kinds and both entities are returned unchanged. -/
theorem setAttribute_invalid_noop_witness :
    Character.SetAttribute ⟨"u1", "alice", fun _ => "", fun _ => ""⟩ "bogus" "x"
      = (⟨"u1", "alice", fun _ => "", fun _ => ""⟩,
         some "attribute name is invalid") ∧
    ItemInstance.SetAttribute swordInstance "bogus" "x"
      = (swordInstance, some "attribute name is invalid") :=
  setAttribute_invalid_noop ⟨"u1", "alice", fun _ => "", fun _ => ""⟩
    swordInstance "bogus" "x" (by decide) (by decide)

/-- C6 (confirmed): when the instance overlay holds no value for `n` (the
stored value is empty) `Attribute(n)` returns the parent template's value, and
once a (non-empty) value is stored through `SetAttribute` it shadows the
template. -/
theorem itemInstance_attribute_fallback (items : List Item) (ii : ItemInstance)
    (it : Item) (n v : String)
    (hp : ItemByName items ii.parent = some it)
    (hvi : ValidItemAttributes.contains n = true)
    (hv : v ≠ "") :
    (ii.attributes n = "" → ItemInstance.Attribute items ii n
        = some (it.Attribute n)) ∧
    ItemInstance.Attribute items (ItemInstance.SetAttribute ii n v).1 n
      = some v := by
  have hlen : strLen v ≠ 0 := fun h => hv ((strLen_eq_zero_iff v).mp h)
  have him : n ∈ ValidItemAttributes := by simpa using hvi
  constructor
  · intro h0
    simp [ItemInstance.Attribute, h0, hp, strLen]
  · simp [ItemInstance.SetAttribute, him, ItemInstance.Attribute, hlen]

/-- C6 witness: the sword instance falls back to the template picture and then
shadows it after a set. -/
theorem itemInstance_attribute_fallback_witness :
    ItemInstance.Attribute itemsCex swordInstance "picture" = some "sword.png" ∧
    ItemInstance.Attribute itemsCex
        (ItemInstance.SetAttribute swordInstance "picture" "axe.png").1 "picture"
      = some "axe.png" := by
  have h := itemInstance_attribute_fallback itemsCex swordInstance
    ⟨"sword", fun n => if n = "picture" then "sword.png" else ""⟩ "picture"
    "axe.png" (by simp [ItemByName, itemsCex, swordInstance])
    (by decide) (by decide)
  exact ⟨by
    have h1 := h.1 (by simp [swordInstance])
    simpa [Item.Attribute] using h1, h.2⟩

/-- C9 (confirmed): `HasPermission` splits the raw `permissions` attribute on
single spaces with no default fallback: when the attribute is absent or empty
the split is `[""]`, so `HasPermission p` holds exactly when `p = ""`; in
general it holds exactly when `p` is one of the space-delimited tokens. -/
theorem hasPermission_split (c : Character) (p : String) :
    (c.attributes "permissions" = "" →
      (Character.HasPermission c p = true ↔ p = "")) ∧
    (Character.HasPermission c p = true ↔
      p ∈ splitSpace (c.attributes "permissions")) := by
  constructor
  · intro h0
    simp only [Character.HasPermission, h0, splitSpace_empty]
    constructor
    · intro h
      have : p ∈ [""] := by simpa using h
      simpa using this
    · intro h; subst h; decide
  · simp [Character.HasPermission]

/-- C9 witness: a character with an empty permissions attribute grants exactly
the empty permission, and a two-token attribute grants a named permission. -/
theorem hasPermission_split_witness :
    (Character.HasPermission ⟨"u1", "alice", fun _ => "", fun _ => ""⟩ "" = true ↔
      ("" : String) = "") ∧
    (Character.HasPermission
        ⟨"u2", "bob", fun n => if n = "permissions" then "CAN_BUILD CAN_DIG" else "",
         fun _ => ""⟩ "CAN_DIG" = true ↔
      ("CAN_DIG" : String) ∈
        splitSpace ((fun n =>
          if n = "permissions" then "CAN_BUILD CAN_DIG" else "") "permissions")) :=
  ⟨(hasPermission_split ⟨"u1", "alice", fun _ => "", fun _ => ""⟩ "").1 rfl,
   (hasPermission_split
      ⟨"u2", "bob", fun n => if n = "permissions" then "CAN_BUILD CAN_DIG" else "",
       fun _ => ""⟩ "CAN_DIG").2⟩

/-! ## Text punctuation (embedding of `text-formatting.go`) -/

def TextStatement : Nat := 0
def TextQuestion : Nat := 1
def TextExclaim : Nat := 2

/-- Embedding of `TextPunctuation` (text-formatting.go:50-63). Go reads the
final byte `text[len(text)-1:]` unconditionally, so the empty string panics,
modelled by `none`; the comparands ".", "?", "!" are ASCII and a UTF-8
continuation byte is never ASCII, so comparing the final character decides
exactly as the final-byte comparison does. -/
def TextPunctuation (text : String) : Option (String × Nat) :=
  match text.data.getLast? with
  | none => none
  | some lastChar =>
    if lastChar = '.' then some (text, TextStatement)
    else if lastChar = '?' then some (text, TextQuestion)
    else if lastChar = '!' then some (text, TextExclaim)
    else some (text ++ ".", TextStatement)

/-- The claim's description of `TextPunctuation`, written independently as a
structural recursion over the character list: undefined on empty text; text
whose last character is '.', '?' or '!' is returned unchanged with the matching
type; otherwise '.' is appended and the type is a statement. -/
def TextPunctuationSpec : List Char → Option (List Char × Nat)
  | [] => none
  | [c] =>
    if c = '.' then some ([c], TextStatement)
    else if c = '?' then some ([c], TextQuestion)
    else if c = '!' then some ([c], TextExclaim)
    else some ([c, '.'], TextStatement)
  | c :: c2 :: rest =>
    (TextPunctuationSpec (c2 :: rest)).map (fun r => (c :: r.1, r.2))

lemma textPunctuationSpec_getLast (l : List Char) :
    TextPunctuationSpec l =
      match l.getLast? with
      | none => none
      | some lastChar =>
        if lastChar = '.' then some (l, TextStatement)
        else if lastChar = '?' then some (l, TextQuestion)
        else if lastChar = '!' then some (l, TextExclaim)
        else some (l ++ ['.'], TextStatement) := by
  induction l with
  | nil => rfl
  | cons c rest ih =>
    cases rest with
    | nil => simp [TextPunctuationSpec]
    | cons c2 rest2 =>
      rw [TextPunctuationSpec, ih]
      cases h : (c2 :: rest2).getLast? with
      | none => simp at h
      | some lc =>
        simp only [List.getLast?_cons_cons, h]
        by_cases h1 : lc = '.' <;> by_cases h2 : lc = '?' <;>
          by_cases h3 : lc = '!' <;> simp [h1, h2, h3]

/-- C10 (confirmed): `TextPunctuation` is defined exactly on non-empty input
(the empty string is outside its domain because the last character is read
unconditionally), and on non-empty input it behaves as the independently
stated description `TextPunctuationSpec`. -/
theorem textPunctuation_behaviour (text : String) :
    (TextPunctuation text = none ↔ text = "") ∧
    TextPunctuation text
      = (TextPunctuationSpec text.data).map (fun r => (String.mk r.1, r.2)) := by
  cases text with
  | mk d =>
    constructor
    · cases h : d.getLast? with
      | none =>
        have hd : d = [] := by
          cases d with
          | nil => rfl
          | cons x xs => simp at h
        subst hd
        simp [TextPunctuation]
      | some lc =>
        have hd : d ≠ [] := by
          intro hh; subst hh; simp at h
        constructor
        · intro hnone
          simp only [TextPunctuation, h] at hnone
          by_cases h1 : lc = '.' <;> by_cases h2 : lc = '?' <;>
            by_cases h3 : lc = '!' <;> simp [h1, h2, h3] at hnone
        · intro hempty
          have : d = [] := by
            have := congrArg String.data hempty
            simpa using this
          exact absurd this hd
    · rw [textPunctuationSpec_getLast]
      simp only [TextPunctuation]
      cases h : d.getLast? with
      | none => simp
      | some lc =>
        by_cases h1 : lc = '.' <;> by_cases h2 : lc = '?' <;>
          by_cases h3 : lc = '!' <;>
          (first
            | (simp [h1, h2, h3]
               done)
            | (simp [h1, h2, h3]
               rfl))

/-- C10 witness: concrete evaluations — empty input is outside the domain, a
question stays a question, and an unpunctuated statement gains a period. -/
theorem textPunctuation_behaviour_witness :
    TextPunctuation "" = none ∧
    TextPunctuation "ready?" = some ("ready?", TextQuestion) ∧
    TextPunctuation "hello" = some ("hello.", TextStatement) :=
  ⟨(textPunctuation_behaviour "").1.mpr rfl,
   by rw [(textPunctuation_behaviour "ready?").2]; decide,
   by rw [(textPunctuation_behaviour "hello").2]; decide⟩

/-! ## ObjectContainer and Character.Move (C1)

`ObjectContainer` itself is not in `src/`; its add/remove contract is modelled
from the spec. `Character.Move` is embedded from `src/unnamed/part_001`. -/

inductive ContainerErr where
  | capacityExceeded
  | duplicate
deriving DecidableEq

structure ObjectContainer where
  capacity : Nat
  contents : List String
deriving DecidableEq

/-- Modelled from the spec: `ObjectContainer` add — fails with
CapacityExceeded when all slots are occupied, rejects an already-present
identifier, and otherwise appends the identifier to the occupied slots. -/
def ObjectContainer.add (oc : ObjectContainer) (oid : String) :
    Except ContainerErr ObjectContainer :=
  if oc.contents.contains oid then .error .duplicate
  else if oc.capacity ≤ oc.contents.length then .error .capacityExceeded
  else .ok { oc with contents := oc.contents ++ [oid] }

/-- Modelled from the spec: `ObjectContainer` remove frees the identifier's
slot. -/
def ObjectContainer.remove (oc : ObjectContainer) (oid : String) :
    ObjectContainer :=
  { oc with contents := oc.contents.filter (fun x => x != oid) }

/-- Embedding of `Character.Move` (src/unnamed/part_001:316-344): the character
is removed from the old room's container and then added to the destination's;
a failing add is handled by `Armeria.log.Fatal`, which terminates the process —
modelled as `none`. The room/area notification side effects carry no container
state and are omitted. -/
def CharacterMove (oldRoom dest : ObjectContainer) (cid : String) :
    Option (ObjectContainer × ObjectContainer) :=
  let oldAfter := oldRoom.remove cid
  match dest.add cid with
  | .error _ => none
  | .ok dest2 => some (oldAfter, dest2)

/-- C1 counterexample: moving `alice` into a full destination room — the add
fails with CapacityExceeded, and `Character.Move` does not restore her to the
source container: it aborts fatally (`none`), at which point `alice` has
already been removed from the source and was never added to the destination. -/
theorem characterMove_full_dest_cex :
    ObjectContainer.add ⟨1, ["bob"]⟩ "alice" = .error .capacityExceeded ∧
    CharacterMove ⟨5, ["alice"]⟩ ⟨1, ["bob"]⟩ "alice" = none ∧
    "alice" ∉ (ObjectContainer.remove ⟨5, ["alice"]⟩ "alice").contents := by
  refine ⟨?_, ?_, ?_⟩
  · simp [ObjectContainer.add]
  · simp [CharacterMove, ObjectContainer.add]
  · simp [ObjectContainer.remove]

/-- C1 (amended): whenever adding the character to the destination container
fails, `Character.Move` does not restore the character to the source; it
terminates fatally (`log.Fatal`, modelled as `none`) with the character already
removed from the source container and absent from the destination. -/
theorem characterMove_add_failure_fatal (oldRoom dest : ObjectContainer)
    (cid : String) (e : ContainerErr) (h : dest.add cid = .error e) :
    CharacterMove oldRoom dest cid = none ∧
    cid ∉ (oldRoom.remove cid).contents := by
  constructor
  · simp [CharacterMove, h]
  · simp [ObjectContainer.remove, List.mem_filter]

/-- C1 witness: the amended statement applied to the concrete full-room move. -/
theorem characterMove_add_failure_fatal_witness :
    CharacterMove ⟨5, ["alice"]⟩ ⟨1, ["bob"]⟩ "alice" = none ∧
    "alice" ∉ (ObjectContainer.remove ⟨5, ["alice"]⟩ "alice").contents :=
  characterMove_add_failure_fatal ⟨5, ["alice"]⟩ ⟨1, ["bob"]⟩ "alice"
    .capacityExceeded (by simp [ObjectContainer.add])

/-! ## Player sessions and DisconnectPlayer (embedding of `web.go`) -/

/-- Teardown side effects of a disconnect, in the order the source performs
them: character logout (with its temp-attribute clearing and room
notifications), the unsent-outbound-queue anomaly check, closing the socket,
closing the send channel, and removal from the player set. -/
inductive DcEffect where
  | loggedOut (characterName : String)
  | queueAnomalyCheck (pending : Nat)
  | socketClosed
  | sendChannelClosed
  | removedFromSet
deriving DecidableEq

/-- Per-connection session: the pid models Go's pointer identity in the
`map[*Player]bool` player set; `sendData` is the outbound queue. -/
structure Player where
  pid : Nat
  character : Option Character
  sendData : List String

structure PlayerManager where
  players : List Nat

/-- Embedding of `PlayerManager.DisconnectPlayer` (web.go:80-122): a guard
returns immediately when the player is not in the set; otherwise the attached
character (if any) is logged out and detached, the unsent-data anomaly check
runs, the socket and the send channel are closed, and the player is removed
from the set. -/
def DisconnectPlayer (m : PlayerManager) (p : Player) :
    PlayerManager × Player × List DcEffect :=
  if p.pid ∈ m.players then
    let e1 : List DcEffect :=
      match p.character with
      | some c => [.loggedOut c.name]
      | none => []
    ({ players := m.players.filter (fun q => q != p.pid) },
     { p with character := none },
     e1 ++ [.queueAnomalyCheck p.sendData.length, .socketClosed,
            .sendChannelClosed, .removedFromSet])
  else (m, p, [])

/-- C7 (confirmed): `DisconnectPlayer` is idempotent — a second disconnect of
the same player finds it removed from the player set, returns the state
unchanged and performs no side effect; for a connected player the first call
performs the teardown (reaching the removal step) exactly once. -/
theorem disconnectPlayer_idempotent (m : PlayerManager) (p : Player) :
    DisconnectPlayer (DisconnectPlayer m p).1 (DisconnectPlayer m p).2.1
      = ((DisconnectPlayer m p).1, (DisconnectPlayer m p).2.1,
         ([] : List DcEffect)) ∧
    (p.pid ∈ m.players →
      DcEffect.removedFromSet ∈ (DisconnectPlayer m p).2.2 ∧
      p.pid ∉ (DisconnectPlayer m p).1.players) := by
  by_cases h : p.pid ∈ m.players
  · have h2 : p.pid ∉ m.players.filter (fun q => q != p.pid) := by
      simp [List.mem_filter]
    constructor
    · simp [DisconnectPlayer, h, h2]
    · intro _
      constructor
      · simp [DisconnectPlayer, h]
      · simp [DisconnectPlayer, h, List.mem_filter]
  · constructor
    · simp [DisconnectPlayer, h]
    · intro hh; exact absurd hh h

/-- C7 witness: a connected player with no character is removed on the first
call, and the second call is a no-op. -/
theorem disconnectPlayer_idempotent_witness :
    DcEffect.removedFromSet
        ∈ (DisconnectPlayer ⟨[7]⟩ ⟨7, none, []⟩).2.2 ∧
    (7 : Nat) ∉ (DisconnectPlayer ⟨[7]⟩ ⟨7, none, []⟩).1.players :=
  (disconnectPlayer_idempotent ⟨[7]⟩ ⟨7, none, []⟩).2 (by decide)

/-! ## Lua host callbacks (embedding of `scripts.go`) -/

inductive LuaValue where
  | num (n : Int)
  | str (s : String)

/-- Modelled from the spec: `CharacterManager.CharacterByName` — the display
name is the secondary lookup key (the manager is not in `src/`). -/
def CharacterByName (chars : List Character) (name : String) : Option Character :=
  chars.find? (fun c => c.name == name)

/-- Replacement of a character in the manager's list by name; models Go's
in-place mutation through the character pointer. -/
def updateCharacter (chars : List Character) (c : Character) : List Character :=
  chars.map (fun x => if x.name == c.name then c else x)

/-- Embedding of `LuaCharacterAttribute` (scripts.go:56-76): pushes -1 when the
named character is not found; otherwise pushes the permanent or temp attribute
value depending on the `tmp` flag. -/
def LuaCharacterAttribute (chars : List Character) (character attr : String)
    (tmp : Bool) : LuaValue :=
  match CharacterByName chars character with
  | none => .num (-1)
  | some c => .str (if ¬ tmp then c.Attribute attr else c.TempAttribute attr)

/-- Embedding of `LuaSetCharacterAttribute` (scripts.go:78-102): pushes -1 when
the named character is not found, -2 when a permanent write fails validation,
and 0 on success; temp writes are unvalidated. -/
def LuaSetCharacterAttribute (chars : List Character)
    (character attr val : String) (tmp : Bool) : LuaValue × List Character :=
  match CharacterByName chars character with
  | none => (.num (-1), chars)
  | some c =>
    if ¬ tmp then
      match c.SetAttribute attr val with
      | (_, some _) => (.num (-2), chars)
      | (c2, none) => (.num 0, updateCharacter chars c2)
    else (.num 0, updateCharacter chars (c.SetTempAttribute attr val))

/-- C8 (confirmed): the Lua host callbacks return the specified codes — both
callbacks push -1 when the character is unknown; the read callback otherwise
pushes the attribute value; the write callback pushes -2 exactly when a
permanent write hits a non-whitelisted name, 0 on a successful permanent
write, and always 0 for temp writes. -/
theorem luaCallback_error_codes (chars : List Character)
    (nm attr val : String) (tmp : Bool) (c : Character) :
    (CharacterByName chars nm = none →
      LuaCharacterAttribute chars nm attr tmp = .num (-1) ∧
      (LuaSetCharacterAttribute chars nm attr val tmp).1 = .num (-1)) ∧
    (CharacterByName chars nm = some c →
      LuaCharacterAttribute chars nm attr tmp
        = .str (if ¬ tmp then c.Attribute attr else c.TempAttribute attr) ∧
      (ValidCharacterAttributes.contains attr = false →
        (LuaSetCharacterAttribute chars nm attr val false).1 = .num (-2)) ∧
      (ValidCharacterAttributes.contains attr = true →
        (LuaSetCharacterAttribute chars nm attr val false).1 = .num 0) ∧
      (LuaSetCharacterAttribute chars nm attr val true).1 = .num 0) := by
  constructor
  · intro hn
    constructor
    · simp [LuaCharacterAttribute, hn]
    · simp [LuaSetCharacterAttribute, hn]
  · intro hs
    refine ⟨by simp [LuaCharacterAttribute, hs], ?_, ?_, ?_⟩
    · intro hinv
      have hm : attr ∉ ValidCharacterAttributes := by simpa using hinv
      simp [LuaSetCharacterAttribute, hs, Character.SetAttribute, hm]
    · intro hval
      have hm : attr ∈ ValidCharacterAttributes := by simpa using hval
      simp [LuaSetCharacterAttribute, hs, Character.SetAttribute, hm]
    · simp [LuaSetCharacterAttribute, hs]

/-- C8 witness: a one-character world — reading an unknown name yields -1 on
both callbacks; on the known character an invalid permanent write yields -2, a
valid one yields 0, and a temp write yields 0. -/
theorem luaCallback_error_codes_witness :
    (LuaCharacterAttribute [⟨"u1", "alice", fun _ => "", fun _ => ""⟩]
        "bob" "title" false = .num (-1) ∧
      (LuaSetCharacterAttribute [⟨"u1", "alice", fun _ => "", fun _ => ""⟩]
        "bob" "title" "x" false).1 = .num (-1)) ∧
    ((LuaSetCharacterAttribute [⟨"u1", "alice", fun _ => "", fun _ => ""⟩]
        "alice" "bogus" "x" false).1 = .num (-2) ∧
      (LuaSetCharacterAttribute [⟨"u1", "alice", fun _ => "", fun _ => ""⟩]
        "alice" "title" "x" false).1 = .num 0 ∧
      (LuaSetCharacterAttribute [⟨"u1", "alice", fun _ => "", fun _ => ""⟩]
        "alice" "bogus" "x" true).1 = .num 0) := by
  have h1 := (luaCallback_error_codes
    [⟨"u1", "alice", fun _ => "", fun _ => ""⟩] "bob" "title" "x" false
    ⟨"u1", "alice", fun _ => "", fun _ => ""⟩).1 rfl
  have h2 := (luaCallback_error_codes
    [⟨"u1", "alice", fun _ => "", fun _ => ""⟩] "alice" "bogus" "x" true
    ⟨"u1", "alice", fun _ => "", fun _ => ""⟩).2 rfl
  have h3 := (luaCallback_error_codes
    [⟨"u1", "alice", fun _ => "", fun _ => ""⟩] "alice" "title" "x" false
    ⟨"u1", "alice", fun _ => "", fun _ => ""⟩).2 rfl
  exact ⟨h1, h2.2.1 (by decide), h3.2.2.1 (by decide), h2.2.2.2⟩

/-! ## Text styling (embedding of `text-formatting.go:5-48, 65-85`) -/

def TextStyleMonospace : Nat := 0
def TextStyleBold : Nat := 1
def TextStyleColor : Nat := 2
def TextStyleLink : Nat := 3

/-- Embedding of `TextStyle` (text-formatting.go:25-48), specialised to string
input: Go takes `interface\x7b\x7d` and first formats with `%v`, the identity on
strings, and every call site in `src/` passes a string. Reading `t[0:1]` of an
empty string panics, modelled by `none`; the `#`-prefix color extraction slices
bytes, which agrees with character slicing for the ASCII guard used here. -/
def TextStyle (text : String) (opts : List Nat) : Option String :=
  if strLen text = 0 then none
  else
    let hasColor : Bool :=
      (⟨text.data.take 1⟩ : String) == "#" && decide (6 < strLen text)
    let color : String := if hasColor then ⟨(text.data.drop 1).take 6⟩ else ""
    let t0 : String := if hasColor then ⟨text.data.drop 7⟩ else text
    some (opts.foldl (fun t o =>
      if o = TextStyleBold then
        "<span style='font-weight:600'>" ++ t ++ "</span>"
      else if o = TextStyleMonospace then
        "<span class='monospace'>" ++ t ++ "</span>"
      else if o = TextStyleColor then
        "<span style='color:#" ++ color ++ "'>" ++ t ++ "</span>"
      else if o = TextStyleLink then
        "<a href='" ++ t ++ "' class='inline-link' target='_new'>" ++ t ++ "</a>"
      else t) t0)

structure TableCell where
  content : String
  styling : String
  header : Bool

/-- Embedding of `TableRow` (text-formatting.go:75-85). -/
def TableRow (cells : List TableCell) : String :=
  "<tr>" ++ (cells.foldl (fun s cell =>
    if cell.header then
      s ++ "<th style='" ++ cell.styling ++ "'>" ++ cell.content ++ "</th>"
    else
      s ++ "<td style='" ++ cell.styling ++ "'>" ++ cell.content ++ "</td>") "")
    ++ "</tr>"

/-- Embedding of `TextTable` (text-formatting.go:66-72); the unclosed
"</table" literal is the source's. -/
def TextTable (rows : List String) : String :=
  "<table>" ++ joinSep "" rows ++ "</table"

/-! ## Command tree and resolution (embedding of the Command and
CommandManager sources) -/

structure CommandPermissions where
  requireNoCharacter : Bool
  requireCharacter : Bool
  requirePermission : String
deriving DecidableEq

structure CommandArgument where
  name : String
  includeRemaining : Bool
  optional : Bool
  noLog : Bool
deriving DecidableEq

/-- The registered command tree. The `Handler` function and logging-only
fields (`Hidden`, `AllowedRoles`, `Parent`) take no part in `FindCommand` and
are omitted; a Go nil `Subcommands`/`Arguments`/`AltNames` slice is the empty
list (registration builds these either as nil or as non-empty literals). -/
inductive Command where
  | mk (name : String) (altNames : List String) (help : String)
       (aliasTarget : String)
       (permissions : Option CommandPermissions)
       (arguments : List CommandArgument)
       (subcommands : List Command)

def Command.name : Command → String
  | .mk n _ _ _ _ _ _ => n

def Command.altNames : Command → List String
  | .mk _ a _ _ _ _ _ => a

def Command.help : Command → String
  | .mk _ _ h _ _ _ _ => h

def Command.aliasTarget : Command → String
  | .mk _ _ _ al _ _ _ => al

def Command.permissions : Command → Option CommandPermissions
  | .mk _ _ _ _ p _ _ => p

def Command.arguments : Command → List CommandArgument
  | .mk _ _ _ _ _ ar _ => ar

def Command.subcommands : Command → List Command
  | .mk _ _ _ _ _ _ s => s

lemma Command.sizeOf_subcommands_lt (c : Command) :
    sizeOf c.subcommands < sizeOf c := by
  cases c with
  | mk n a h al p ar s => simp [Command.subcommands]

/-- Embedding of `Command.CheckPermissions`: nil permissions allow everyone;
otherwise the no-character/character requirements are checked, then a named
permission is tested against the acting character. When a permission string is
required and no character is attached, Go dereferences a nil `*Character`
(`p.Character().HasPermission`) and panics — modelled by `none`. -/
def Command.CheckPermissions (cmd : Command) (p : Player) : Option Bool :=
  match cmd.permissions with
  | none => some true
  | some perms =>
    if perms.requireNoCharacter && p.character.isSome then some false
    else if perms.requireCharacter && p.character.isNone then some false
    else if 0 < strLen perms.requirePermission then
      match p.character with
      | none => none
      | some ch => some (ch.HasPermission perms.requirePermission)
    else some true

/-- Permission-guarded help rows for `ShowSubcommandHelp`; the guard tests
`cmd` (the parent command) for each row, exactly as the source does. -/
def subcommandRows (cmd : Command) (p : Player) :
    List Command → Option (List String)
  | [] => some []
  | scmd :: rest => do
    let ok ← cmd.CheckPermissions p
    let tail ← subcommandRows cmd p rest
    if ok then
      let styled ← TextStyle scmd.name [TextStyleBold]
      some (TableRow [⟨styled, "", false⟩, ⟨scmd.help, "", false⟩] :: tail)
    else
      some tail

/-- Embedding of `Command.ShowSubcommandHelp`. -/
def ShowSubcommandHelp (cmd : Command) (p : Player)
    (commandsEntered : List String) : Option String :=
  if cmd.subcommands.isEmpty then some "There are no sub-commands available."
  else do
    let sty ← TextStyle "Syntax:" [TextStyleBold]
    let sub ← TextStyle "Sub-commands:" [TextStyleBold]
    let rows ← subcommandRows cmd p cmd.subcommands
    some (joinSep "\n" [cmd.help,
      sty ++ " /" ++ joinSpace commandsEntered ++ " &lt;sub-command&gt;\n",
      sub, TextTable rows])

def argumentStrings : List CommandArgument → List String
  | [] => []
  | a :: rest =>
    (if a.optional then "[" ++ a.name ++ "]" else "&lt;" ++ a.name ++ "&gt;")
      :: argumentStrings rest

/-- Embedding of `Command.ShowArgumentHelp` (the `src` version whose body does
not consult the player). -/
def ShowArgumentHelp (cmd : Command) (commandsEntered : List String) :
    Option String :=
  if cmd.arguments.isEmpty then some "There are no command arguments."
  else do
    let sty ← TextStyle "Syntax:" [TextStyleBold]
    some (joinSep "\n" [cmd.help,
      sty ++ " /" ++ joinSpace commandsEntered ++ " "
        ++ joinSpace (argumentStrings cmd.arguments) ++ "\n"])

/-- Modelled from the spec: `misc.ParseArguments` (not in `src/`) — argument
tokens are the whitespace-split fields, already split by the caller. -/
def ParseArguments (fields : List String) : List String := fields

/-- The argument-binding loop of `FindCommand` (scripts.go:311-322): a missing
required argument aborts to usage help (`none`); an `IncludeRemaining`
argument takes the space-joined remainder; others take their positional token
or the empty string. -/
def parseArgsLoop (parsedArgs : List String) :
    List CommandArgument → Nat → Option (List (String × String))
  | [], _ => some []
  | a :: restA, pos =>
    if !a.optional && parsedArgs.length < pos + 1 then none
    else
      let v : String :=
        if a.includeRemaining then joinSpace (parsedArgs.drop pos)
        else if pos + 1 ≤ parsedArgs.length then parsedArgs.getD pos ""
        else ""
      (parseArgsLoop parsedArgs restA (pos + 1)).map (fun r => (a.name, v) :: r)

def CommandErrNoPerms : String := "You cannot use that command."
def CommandErrInvalid : String := "That's an invalid command."

/-- Embedding of `CommandManager.FindCommand` (scripts.go:281-330). Go splits
the input into fields and reads `sections[0]` before the match loop, so
whitespace-only input panics — modelled by the outer `none`; the loop over
`searchWithin` is the list recursion (re-splitting the unchanged input string
on each step, which is the same pure value Go computes once); matching a
command with subcommands recurses into them on the space-joined remaining
fields. Results mirror the Go triple: matched command, bound arguments, error
string. -/
def FindCommand (p : Player) (searchWithin : List Command) (cmdStr : String)
    (alreadyProcessed : List String) :
    Option (Option Command × Option (List (String × String)) × String) :=
  match searchWithin with
  | [] =>
    match goFields cmdStr with
    | [] => none
    | _ :: _ => some (none, none, CommandErrInvalid)
  | c :: rest =>
    match goFields cmdStr with
    | [] => none
    | s0 :: sections1 =>
      if lowerStr c.name = lowerStr s0 ∨ c.altNames.contains (lowerStr s0) then
        match c.CheckPermissions p with
        | none => none
        | some ok =>
          if !ok then some (none, none, CommandErrNoPerms)
          else if !c.subcommands.isEmpty then
            if sections1 = [] then
              (ShowSubcommandHelp c p
                  (alreadyProcessed ++ [lowerStr s0])).map
                (fun h => (none, none, h))
            else
              FindCommand p c.subcommands (joinSpace sections1)
                (alreadyProcessed ++ [lowerStr s0])
          else if !c.arguments.isEmpty then
            let parsedArgs := ParseArguments sections1
            if parsedArgs ≠ [] ∧ parsedArgs.getLast? = some "--help" then
              (ShowArgumentHelp c (alreadyProcessed ++ [lowerStr s0])).map
                (fun h => (none, none, h))
            else
              match parseArgsLoop parsedArgs c.arguments 0 with
              | none =>
                (ShowArgumentHelp c (alreadyProcessed ++ [lowerStr s0])).map
                  (fun h => (none, none, h))
              | some cargs => some (some c, some cargs, "")
          else some (some c, some [], "")
      else FindCommand p rest cmdStr alreadyProcessed
termination_by sizeOf searchWithin
decreasing_by
  all_goals simp_wf
  have hlt := Command.sizeOf_subcommands_lt scmd
  omega

/-! ## Resolution lemmas and the C2 / C5 theorems -/

lemma findCommand_no_match (p : Player) (ap : List String) (s : String)
    (h : goFields s ≠ []) :
    FindCommand p [] s ap = some (none, none, CommandErrInvalid) := by
  rw [FindCommand]
  cases hg : goFields s with
  | nil => exact absurd hg h
  | cons a b => rfl

lemma findCommand_perm_denied (p : Player) (c : Command)
    (restC : List Command) (ap : List String) (s t : String)
    (rest : List String)
    (hf : goFields s = t :: rest)
    (hm : lowerStr c.name = lowerStr t ∨ c.altNames.contains (lowerStr t))
    (hp : c.CheckPermissions p = some false) :
    FindCommand p (c :: restC) s ap = some (none, none, CommandErrNoPerms) := by
  rw [FindCommand, hf]
  simp only [if_pos hm, hp]
  rfl

/-- C5 (confirmed): command resolution is insensitive to the letter case of the
command token — for every player, registered command list and two input lines
whose first field differs only by case (same lowering) and whose remaining
fields agree, `FindCommand` returns identical results, whichever of the `Name`
or `AltNames` matching paths applies. -/
theorem findCommand_case_insensitive (p : Player) (cmds : List Command)
    (s1 s2 t1 t2 : String) (rest ap : List String)
    (h1 : goFields s1 = t1 :: rest) (h2 : goFields s2 = t2 :: rest)
    (hlow : lowerStr t1 = lowerStr t2) :
    FindCommand p cmds s1 ap = FindCommand p cmds s2 ap := by
  induction cmds with
  | nil => rw [FindCommand, FindCommand, h1, h2]
  | cons c restC ih =>
    rw [FindCommand, FindCommand, h1, h2]
    simp only [hlow]
    by_cases hm : lowerStr c.name = lowerStr t2
        ∨ c.altNames.contains (lowerStr t2)
    · simp only [if_pos hm]
    · simp only [if_neg hm]
      exact ih

/-- A command whose use requires the `CAN_DIG` permission. -/
def digCommand : Command :=
  .mk "dig" [] "" "" (some ⟨false, false, "CAN_DIG"⟩) [] []

/-- A command matched through an alternate name. -/
def lookCommand : Command := .mk "look" ["l"] "" "" none [] []

/-- A connected player whose character holds no permissions. -/
def cexPlayer : Player :=
  ⟨1, some ⟨"u1", "alice", fun _ => "", fun _ => ""⟩, []⟩

/-- C5 witness: `"Look"` and `"look"` resolve identically against the primary
name, and `"L summ"` and `"l summ"` resolve identically against an alternate
name. -/
theorem findCommand_case_insensitive_witness :
    FindCommand cexPlayer [lookCommand] "Look" []
      = FindCommand cexPlayer [lookCommand] "look" [] ∧
    FindCommand cexPlayer [lookCommand] "L summ" []
      = FindCommand cexPlayer [lookCommand] "l summ" [] :=
  ⟨findCommand_case_insensitive cexPlayer [lookCommand] "Look" "look"
      "Look" "look" [] [] rfl rfl rfl,
   findCommand_case_insensitive cexPlayer [lookCommand] "L summ" "l summ"
      "L" "l" ["summ"] [] rfl rfl rfl⟩

/-- C2 counterexample: a permission-denied command and an unknown command
produce *different* user-visible error strings on concrete inputs — a
connected, permissionless player running `dig` against a registry holding the
permission-gated dig command is told "You cannot use that command.", while the
same input against an empty registry is told "That's an invalid command.", and
the two strings are distinct, so the actor can tell the cases apart. -/
theorem commandErrors_identical_cex :
    FindCommand cexPlayer [digCommand] "dig" []
      = some (none, none, "You cannot use that command.") ∧
    FindCommand cexPlayer [] "dig" []
      = some (none, none, "That's an invalid command.") ∧
    ("You cannot use that command." : String)
      ≠ "That's an invalid command." := by
  refine ⟨?_, ?_, by decide⟩
  · exact findCommand_perm_denied cexPlayer digCommand [] [] "dig" "dig" []
      rfl (Or.inl rfl) rfl
  · exact findCommand_no_match cexPlayer [] "dig" (by decide)

/-- C2 (amended): the two resolution failures yield fixed but *different*
strings — a matched command failing its permission check resolves to
`CommandErrNoPerms` ("You cannot use that command.") while an input matching
no command resolves to `CommandErrInvalid` ("That's an invalid command."), and
the two constants differ, so permission-denied commands are distinguishable
from nonexistent ones by their error text. -/
theorem commandErrors_distinguishable (p : Player) (c : Command)
    (restC : List Command) (ap : List String) (s t : String)
    (rest : List String)
    (hf : goFields s = t :: rest)
    (hm : lowerStr c.name = lowerStr t ∨ c.altNames.contains (lowerStr t))
    (hp : c.CheckPermissions p = some false) :
    FindCommand p (c :: restC) s ap = some (none, none, CommandErrNoPerms) ∧
    FindCommand p [] s ap = some (none, none, CommandErrInvalid) ∧
    CommandErrNoPerms ≠ CommandErrInvalid :=
  ⟨findCommand_perm_denied p c restC ap s t rest hf hm hp,
   findCommand_no_match p ap s (by rw [hf]; exact fun hh => List.noConfusion hh),
   by decide⟩

/-- C2 witness: the amended statement applied to the concrete dig scenario. -/
theorem commandErrors_distinguishable_witness :
    FindCommand cexPlayer [digCommand] "dig" []
      = some (none, none, CommandErrNoPerms) ∧
    FindCommand cexPlayer [] "dig" []
      = some (none, none, CommandErrInvalid) ∧
    CommandErrNoPerms ≠ CommandErrInvalid :=
  commandErrors_distinguishable cexPlayer digCommand [] [] "dig" "dig" []
    rfl (Or.inl rfl) rfl

end Armeria
